import Mathlib

/-!
Verification of `src/class/prte_object.c`: the lazy class-descriptor
initializer of the PRRTE object system.

The C code is shallowly embedded as follows.

* Function pointers (`prte_construct_t` / `prte_destruct_t`) are opaque
  identifiers, `Fn := Nat`; a nullable function pointer is `Option Fn`
  with `none` standing for `NULL`.
* The immutable declaration part of a `prte_class_t` (name, parent link,
  constructor, destructor, instance size) is the inductive `ClassDecl`.
  The parent chain is embedded structurally, so it is acyclic by
  construction — exactly the caller contract the C code relies on
  (`cls_parent` chains are formed by static descriptor definitions and
  never contain cycles).
* The fields the registry writes (`cls_initialized`, `cls_depth`,
  `cls_construct_array`, `cls_destruct_array`) live in `ClassT` together
  with the declaration.
* The `malloc` heap is a list of allocations indexed by allocation id;
  a freed allocation is replaced by `none` (so dangling ids remain
  observable).  A pointer `Ptr` is an (allocation id, slot offset) pair.
  Allocation never fails in the model (on real `malloc` failure the C
  code terminates the process, so no state after a failed allocation is
  ever observable).
* The file-level mutable state of `prte_object.c` (`prte_class_init_epoch`,
  `classes`, `num_classes`, `max_classes`) plus the heap and the set of
  descriptors reachable by the program form the `World` state record.
  `classes == NULL` is modelled as `Option.none`.
* The mutex only serialises callers; in this sequential model the
  double-checked stamp test appears as the two successive (identical)
  tests of the source.
* `prte_class_initialize` takes the index of a descriptor in
  `World.descs` (the C function takes a pointer; `assert(cls)` plus an
  invalid pointer is undefined behaviour, modelled as returning the
  state unchanged on an out-of-range index).
-/

/-- Opaque identifier of a constructor/destructor function. `NULL`-able
function pointers are `Option Fn`, `none` = `NULL`. -/
abbrev Fn := Nat

/-- A pointer into the model heap: (allocation id, slot offset). -/
abbrev Ptr := Nat × Nat

/-- Immutable declaration part of a `prte_class_t`: `cls_name`,
`cls_parent` (structural, hence acyclic), `cls_construct`,
`cls_destruct`, `cls_sizeof`. -/
inductive ClassDecl : Type where
| root (name : String) (construct destruct : Option Fn) (sz : Nat)
| child (name : String) (parent : ClassDecl) (construct destruct : Option Fn) (sz : Nat)
deriving DecidableEq, Repr

/-- Accessor for `cls->cls_parent`. -/
def ClassDecl.cls_parent : ClassDecl → Option ClassDecl
| .root .. => none
| .child _ p _ _ _ => some p

/-- Accessor for `cls->cls_construct`. -/
def ClassDecl.cls_construct : ClassDecl → Option Fn
| .root _ c _ _ => c
| .child _ _ c _ _ => c

/-- Accessor for `cls->cls_destruct`. -/
def ClassDecl.cls_destruct : ClassDecl → Option Fn
| .root _ _ d _ => d
| .child _ _ _ d _ => d

/-- The sequence of classes visited by `for (c = cls; c; c = c->cls_parent)`:
this class first, root last. -/
def ancChain : ClassDecl → List ClassDecl
| .root n c d s => [.root n c d s]
| .child n p c d s => .child n p c d s :: ancChain p

/-- Value of `cls->cls_depth` computed by the counting loop of
`prte_class_initialize`: one increment per class visited. -/
def countDepth (cls : ClassDecl) : Nat := (ancChain cls).length

/-- Counter `cls_construct_array_count`: number of visited classes with
`NULL != c->cls_construct`. -/
def countConstruct (cls : ClassDecl) : Nat :=
(ancChain cls).countP (fun c => c.cls_construct.isSome)

/-- Counter `cls_destruct_array_count`: number of visited classes with
`NULL != c->cls_destruct`. -/
def countDestruct (cls : ClassDecl) : Nat :=
(ancChain cls).countP (fun c => c.cls_destruct.isSome)

/-- The fill loop of `prte_class_initialize`: `fuel` iterations
(`for (i = 0; i < cls->cls_depth; i++)`), walking `c` up the parent
chain; `ci` is the local `cls_construct_array` cursor (an index into the
block, decremented before each constructor write), `di` the local
`cls_destruct_array` cursor (incremented after each destructor write).
Returns the block plus the final cursors. -/
def fillLoop : Nat → Option ClassDecl → List (Option Fn) → Nat → Nat →
    List (Option Fn) × Nat × Nat
| 0, _, block, ci, di => (block, ci, di)
| _ + 1, none, block, ci, di => (block, ci, di)
| n + 1, some c, block, ci, di =>
  let p1 : List (Option Fn) × Nat :=
    match c.cls_construct with
    | some f => ((block.set (ci - 1) (some f)), ci - 1)
    | none => (block, ci)
  let p2 : List (Option Fn) × Nat :=
    match c.cls_destruct with
    | some f => ((p1.1.set di (some f)), di + 1)
    | none => (p1.1, di)
  fillLoop n c.cls_parent p2.1 p1.2 p2.2

/-- Contents of the single block allocated by `prte_class_initialize`
for `cls`: `cc + kc + 2` slots; sentinel written at slot `cc` (the end
marker for the constructors, where the backward fill starts); the fill
loop runs for `cls_depth` iterations with the constructor cursor at
`cc` and the destructor cursor at `cc + 1`; finally the destructor end
marker is written at the final destructor cursor.  Fresh `malloc` memory
is indeterminate; it is modelled as `none`-filled — every slot the
program reads is overwritten before the block becomes visible. -/
def computeSlots (cls : ClassDecl) : List (Option Fn) :=
  let cc := countConstruct cls
  let kc := countDestruct cls
  let block0 := (List.replicate (cc + kc + 2) (none : Option Fn)).set cc none
  let r := fillLoop (countDepth cls) (some cls) block0 cc (cc + 1)
  r.1.set r.2.2 none

/-- Mutable descriptor record: the declaration plus the fields written
by the registry (`cls_initialized`, `cls_depth`, `cls_construct_array`,
`cls_destruct_array`). -/
structure ClassT where
  decl : ClassDecl
  cls_initialized : Int
  cls_depth : Nat
  cls_construct_array : Option Ptr
  cls_destruct_array : Option Ptr
deriving DecidableEq, Repr

/-- The global state of `prte_object.c`. -/
structure World where
  prte_class_init_epoch : Int
  classes : Option (List (Option Ptr))
  num_classes : Nat
  max_classes : Nat
  heap : List (Option (List (Option Fn)))
  descs : List ClassT
deriving DecidableEq, Repr

/-- Growth step `static const int increment = 10;`. -/
def increment : Nat := 10

/-- Modelled from the spec: `PRTE_SUCCESS` lives in `constants.h`, which is
not among the supplied sources; the spec only requires a success
indicator, whose concrete value (0 in PRRTE) is irrelevant to every
claim. -/
def PRTE_SUCCESS : Int := 0

/-- Value of `INT_MAX` for the 32-bit `int` epoch counter. -/
def INT_MAX : Int := 2147483647

/-- Model of `expand_array`: grow `classes` by `increment` slots via `realloc`
(old entries preserved), zero-initialising the new slots from index
`num_classes` upward. -/
def expand_array (w : World) : World :=
  let max' := w.max_classes + increment
  { w with max_classes := max',
           classes := some ((w.classes.getD []).take w.num_classes ++
                            List.replicate (max' - w.num_classes) none) }

/-- Model of `save_class`: grow the array if full, then store the descriptor's
`cls_construct_array` base pointer at index `num_classes` and bump the
count. -/
def save_class (w : World) (p : Ptr) : World :=
  let w1 := if w.num_classes ≥ w.max_classes then expand_array w else w
  { w1 with classes := some ((w1.classes.getD []).set w1.num_classes (some p)),
            num_classes := w1.num_classes + 1 }

/-- Model of `prte_class_initialize` on the descriptor at index `i` of
`World.descs`.  Fast path: stamp equal to the current epoch.  Slow path
(under the lock, with the double check repeated): compute depth and the
construct/destruct counts, allocate the single block, fill it, point
`cls_construct_array` at its base and `cls_destruct_array` at offset
`cc + 1`, stamp the descriptor with the current epoch, and save the base
pointer in the registry. -/
def prte_class_initialize (w : World) (i : Nat) : World :=
  match w.descs.get? i with
  | none => w
  | some cls =>
    if w.prte_class_init_epoch = cls.cls_initialized then w
    else if w.prte_class_init_epoch = cls.cls_initialized then w
    else
      let cc := countConstruct cls.decl
      let a := w.heap.length
      let cls' := { cls with
        cls_depth := countDepth cls.decl,
        cls_initialized := w.prte_class_init_epoch,
        cls_construct_array := some (a, 0),
        cls_destruct_array := some (a, cc + 1) }
      let w' := { w with heap := w.heap ++ [some (computeSlots cls.decl)],
                         descs := w.descs.set i cls' }
      save_class w' (a, 0)

/-- The free loop of `prte_class_finalize`: for each of the first
`num_classes` entries of `classes`, if non-`NULL`, free it (the id names
the whole combined block). -/
def freeAll (heap : List (Option (List (Option Fn)))) :
    List (Option Ptr) → List (Option (List (Option Fn)))
| [] => heap
| none :: rest => freeAll heap rest
| some (a, _) :: rest => freeAll (heap.set a none) rest

/-- Model of `prte_class_finalize`: advance the epoch (wrapping `INT_MAX` to 1),
then, if `classes` is non-`NULL`, free every saved block, free the array
itself and reset count and capacity; return `PRTE_SUCCESS`. -/
def prte_class_finalize (w : World) : World × Int :=
  let epoch' := if INT_MAX = w.prte_class_init_epoch then 1
                else w.prte_class_init_epoch + 1
  let w1 := { w with prte_class_init_epoch := epoch' }
  let w2 :=
    match w1.classes with
    | none => w1
    | some arr =>
      { w1 with heap := freeAll w1.heap (arr.take w1.num_classes),
                classes := none, num_classes := 0, max_classes := 0 }
  (w2, PRTE_SUCCESS)

/-- The statically initialised base-class descriptor
`prte_object_t_class`: no parent, no constructor, no destructor,
`cls_initialized = 1`, depth 0, both array pointers `NULL`.
(`sizeof(prte_object_t)` is opaque to this core; 24 is a placeholder.) -/
def prte_object_t_class : ClassT :=
  { decl := .root "prte_object_t" none none 24,
    cls_initialized := 1, cls_depth := 0,
    cls_construct_array := none, cls_destruct_array := none }

/-- The program's initial state: epoch 1, empty registry, empty heap,
and the one statically pre-marked descriptor. -/
def initialWorld : World :=
  { prte_class_init_epoch := 1, classes := none, num_classes := 0,
    max_classes := 0, heap := [], descs := [prte_object_t_class] }

/-- Spec-side list: the non-`NULL` constructors of the chain, ordered
root class first, this class last. -/
def ctorsRootFirst (cls : ClassDecl) : List Fn :=
  ((ancChain cls).reverse).filterMap ClassDecl.cls_construct

/-- Spec-side list: the non-`NULL` destructors of the chain, ordered
this class first, root class last. -/
def dtorsLeafFirst (cls : ClassDecl) : List Fn :=
  (ancChain cls).filterMap ClassDecl.cls_destruct

/-- Spec-side contents of the combined block: the construct chain
(root-first) with its `NULL` end marker, followed by the destruct chain
(leaf-first) with its `NULL` end marker. -/
def specSlots (cls : ClassDecl) : List (Option Fn) :=
  (ctorsRootFirst cls).map some ++ [none] ++
  (dtorsLeafFirst cls).map some ++ [none]

/-- The block a descriptor's `cls_construct_array` points at, if it
points at a live allocation. -/
def blockOf (w : World) (i : Nat) : Option (List (Option Fn)) :=
  match w.descs.get? i with
  | some cls =>
    match cls.cls_construct_array with
    | some (a, _) => (w.heap.get? a).bind id
    | none => none
  | none => none

/-! ## Proof infrastructure: sequences of slot writes -/

/-- Writing the functions `fs` into consecutive slots of `block`
starting at index `i`. -/
def writeList (block : List (Option Fn)) (i : Nat) : List Fn → List (Option Fn)
| [] => block
| f :: fs => writeList (block.set i (some f)) (i + 1) fs

lemma writeList_length : ∀ (fs : List Fn) (b : List (Option Fn)) (i : Nat),
    (writeList b i fs).length = b.length
| [], _, _ => rfl
| _ :: fs, b, i => by
  rw [show writeList b i (_ :: fs) = writeList (b.set i _) (i + 1) fs from rfl,
    writeList_length fs, List.length_set]

lemma writeList_append : ∀ (xs ys : List Fn) (b : List (Option Fn)) (i : Nat),
    writeList b i (xs ++ ys) = writeList (writeList b i xs) (i + xs.length) ys
| [], ys, b, i => rfl
| x :: xs, ys, b, i => by
  rw [List.cons_append,
    show writeList b i (x :: (xs ++ ys)) = writeList (b.set i (some x)) (i + 1) (xs ++ ys) from rfl,
    writeList_append xs ys,
    show writeList b i (x :: xs) = writeList (b.set i (some x)) (i + 1) xs from rfl]
  congr 1
  simp only [List.length_cons]
  omega

lemma writeList_set_comm : ∀ (fs : List Fn) (b : List (Option Fn)) (i j : Nat) (v : Option Fn),
    (j < i ∨ i + fs.length ≤ j) →
    writeList (b.set j v) i fs = (writeList b i fs).set j v
| [], _, _, _, _, _ => rfl
| f :: fs, b, i, j, v, h => by
  have hne : j ≠ i := by rcases h with h | h <;> [omega; (simp at h; omega)]
  rw [show writeList (b.set j v) i (f :: fs)
        = writeList ((b.set j v).set i (some f)) (i + 1) fs from rfl,
    List.set_comm _ _ _ hne,
    writeList_set_comm fs _ (i + 1) j v (by rcases h with h | h <;> [omega; (simp at h; omega)]),
    show writeList b i (f :: fs) = writeList (b.set i (some f)) (i + 1) fs from rfl]

lemma writeList_eq : ∀ (fs : List Fn) (b : List (Option Fn)) (i : Nat),
    i + fs.length ≤ b.length →
    writeList b i fs = b.take i ++ fs.map some ++ b.drop (i + fs.length)
| [], b, i, h => by
  simp only [ writeList, List.map_nil, List.append_nil, List.length_nil, Nat.add_zero]
  exact (List.take_append_drop i b).symm
| f :: fs, b, i, h => by
  simp only [List.length_cons] at h
  have hi : i < b.length := by omega
  have h1 : (List.take i b).length = i := List.length_take_of_le (Nat.le_of_lt hi)
  have htake : (b.set i (some f)).take (i + 1) = b.take i ++ [some f] := by
    rw [List.set_eq_take_cons_drop _ hi, List.take_append_eq_append_take, List.take_take,
      Nat.min_eq_right (Nat.le_succ i), h1, Nat.add_sub_cancel_left]
    simp
  rw [show writeList b i (f :: fs) = writeList (b.set i (some f)) (i + 1) fs from rfl,
    writeList_eq fs _ (i + 1) (by simp only [List.length_set]; omega),
    List.drop_set_of_lt _ _ (by omega : i < i + 1 + fs.length),
    htake,
    show i + 1 + fs.length = i + (fs.length + 1) by omega]
  simp [List.append_assoc]

/-! ## Structure of the ancestor chain -/

lemma countDepth_root (n : String) (c d : Option Fn) (s : Nat) :
    countDepth (.root n c d s) = 1 := rfl

lemma countDepth_child (n : String) (p : ClassDecl) (c d : Option Fn) (s : Nat) :
    countDepth (.child n p c d s) = countDepth p + 1 := by
  simp [countDepth, ancChain]

lemma countConstruct_root (n : String) (c d : Option Fn) (s : Nat) :
    countConstruct (.root n c d s) = if c.isSome then 1 else 0 := by
  cases c <;>
    simp [countConstruct, ancChain, List.countP, List.countP.go, ClassDecl.cls_construct]

lemma countConstruct_child (n : String) (p : ClassDecl) (c d : Option Fn) (s : Nat) :
    countConstruct (.child n p c d s) = countConstruct p + (if c.isSome then 1 else 0) := by
  simp [countConstruct, ancChain, List.countP_cons, ClassDecl.cls_construct]

lemma countDestruct_root (n : String) (c d : Option Fn) (s : Nat) :
    countDestruct (.root n c d s) = if d.isSome then 1 else 0 := by
  cases d <;>
    simp [countDestruct, ancChain, List.countP, List.countP.go, ClassDecl.cls_destruct]

lemma countDestruct_child (n : String) (p : ClassDecl) (c d : Option Fn) (s : Nat) :
    countDestruct (.child n p c d s) = countDestruct p + (if d.isSome then 1 else 0) := by
  simp [countDestruct, ancChain, List.countP_cons, ClassDecl.cls_destruct]

lemma ctorsRootFirst_root (n : String) (c d : Option Fn) (s : Nat) :
    ctorsRootFirst (.root n c d s) = c.toList := by
  cases c <;> simp [ctorsRootFirst, ancChain, ClassDecl.cls_construct]

lemma ctorsRootFirst_child (n : String) (p : ClassDecl) (c d : Option Fn) (s : Nat) :
    ctorsRootFirst (.child n p c d s) = ctorsRootFirst p ++ c.toList := by
  cases c <;>
    simp [ctorsRootFirst, ancChain, ClassDecl.cls_construct, List.filterMap_append]

lemma dtorsLeafFirst_root (n : String) (c d : Option Fn) (s : Nat) :
    dtorsLeafFirst (.root n c d s) = d.toList := by
  cases d <;> simp [dtorsLeafFirst, ancChain, ClassDecl.cls_destruct]

lemma dtorsLeafFirst_child (n : String) (p : ClassDecl) (c d : Option Fn) (s : Nat) :
    dtorsLeafFirst (.child n p c d s) = d.toList ++ dtorsLeafFirst p := by
  cases d <;> simp [dtorsLeafFirst, ancChain, List.filterMap_cons, ClassDecl.cls_destruct]

lemma length_ctorsRootFirst (cls : ClassDecl) :
    (ctorsRootFirst cls).length = countConstruct cls := by
  simp [ctorsRootFirst, countConstruct, List.length_filterMap_eq_countP, List.countP_reverse]

lemma length_dtorsLeafFirst (cls : ClassDecl) :
    (dtorsLeafFirst cls).length = countDestruct cls := by
  simp [dtorsLeafFirst, countDestruct, List.length_filterMap_eq_countP]

/-! ## The fill loop computes the two chains -/

lemma fillLoop_succ (m : Nat) (c : ClassDecl) (b : List (Option Fn)) (ci di : Nat) :
    fillLoop (m + 1) (some c) b ci di =
      (match c.cls_destruct with
       | some f =>
         fillLoop m c.cls_parent
           (((match c.cls_construct with
              | some f' => ((b.set (ci - 1) (some f')), ci - 1)
              | none => (b, ci)) : List (Option Fn) × Nat).1.set di (some f))
           ((match c.cls_construct with
             | some f' => ((b.set (ci - 1) (some f')), ci - 1)
             | none => (b, ci)) : List (Option Fn) × Nat).2 (di + 1)
       | none =>
         fillLoop m c.cls_parent
           ((match c.cls_construct with
             | some f' => ((b.set (ci - 1) (some f')), ci - 1)
             | none => (b, ci)) : List (Option Fn) × Nat).1
           ((match c.cls_construct with
             | some f' => ((b.set (ci - 1) (some f')), ci - 1)
             | none => (b, ci)) : List (Option Fn) × Nat).2 di) := by
  cases hd : c.cls_destruct <;> cases hc : c.cls_construct <;>
    simp [fillLoop, hd, hc]

lemma fillLoop_spec : ∀ (cls : ClassDecl) (b : List (Option Fn)) (ci di : Nat),
    countConstruct cls ≤ ci → ci ≤ di →
    fillLoop (countDepth cls) (some cls) b ci di =
      (writeList (writeList b di (dtorsLeafFirst cls)) (ci - countConstruct cls)
         (ctorsRootFirst cls),
       ci - countConstruct cls, di + countDestruct cls)
| .root n c d s, b, ci, di, hci, hdi => by
  rcases c with _ | f <;> rcases d with _ | g <;>
    simp only [countConstruct_root, Option.isSome_none, Option.isSome_some, if_true, if_false,
      Bool.false_eq_true, reduceIte] at hci <;>
    simp [countDepth_root, countConstruct_root, countDestruct_root, ctorsRootFirst_root,
      dtorsLeafFirst_root, fillLoop, ClassDecl.cls_construct, ClassDecl.cls_destruct,
      ClassDecl.cls_parent, writeList, Option.toList]
  · -- c = some f, d = some g : need the two writes swapped
    exact List.set_comm _ _ _ (by omega)
| .child n p c d s, b, ci, di, hci, hdi => by
  rw [countDepth_child, fillLoop_succ]
  rcases c with _ | f <;> rcases d with _ | g <;>
    simp only [countConstruct_child, Option.isSome_none, Option.isSome_some, if_true, if_false,
      Bool.false_eq_true, reduceIte, Nat.add_zero] at hci <;>
    simp only [ClassDecl.cls_construct, ClassDecl.cls_destruct, ClassDecl.cls_parent,
      ctorsRootFirst_child, dtorsLeafFirst_child, countConstruct_child, countDestruct_child,
      Option.toList, Option.isSome_none, Option.isSome_some, if_true, if_false,
      Bool.false_eq_true, reduceIte, List.append_nil, List.nil_append, List.singleton_append,
      Nat.add_zero]
  · -- c = none, d = none
    rw [fillLoop_spec p b ci di hci hdi]
  · -- c = none, d = some g
    rw [fillLoop_spec p (b.set di (some g)) ci (di + 1) hci (by omega)]
    rw [show writeList b di (g :: dtorsLeafFirst p)
          = writeList (b.set di (some g)) (di + 1) (dtorsLeafFirst p) from rfl]
    rw [show di + (countDestruct p + 1) = di + 1 + countDestruct p by omega]
  · -- c = some f, d = none
    rw [fillLoop_spec p (b.set (ci - 1) (some f)) (ci - 1) di (by omega) (by omega)]
    rw [writeList_set_comm _ _ _ _ _ (Or.inl (by omega)),
      writeList_set_comm _ _ _ _ _ (Or.inr (by rw [length_ctorsRootFirst]; omega))]
    rw [writeList_append]
    rw [length_ctorsRootFirst]
    rw [show ci - (countConstruct p + 1) = ci - 1 - countConstruct p by omega]
    rw [show ci - 1 - countConstruct p + countConstruct p = ci - 1 by omega]
    rfl
  · -- c = some f, d = some g
    rw [List.set_comm _ _ _ (by omega : ci - 1 ≠ di)]
    rw [fillLoop_spec p ((b.set di (some g)).set (ci - 1) (some f)) (ci - 1) (di + 1)
      (by omega) (by omega)]
    rw [writeList_set_comm _ _ _ _ _ (Or.inl (by omega)),
      writeList_set_comm _ _ _ _ _ (Or.inr (by rw [length_ctorsRootFirst]; omega))]
    rw [show writeList b di (g :: dtorsLeafFirst p)
          = writeList (b.set di (some g)) (di + 1) (dtorsLeafFirst p) from rfl]
    rw [writeList_append]
    rw [length_ctorsRootFirst]
    rw [show ci - (countConstruct p + 1) = ci - 1 - countConstruct p by omega]
    rw [show ci - 1 - countConstruct p + countConstruct p = ci - 1 by omega]
    rw [show di + (countDestruct p + 1) = di + 1 + countDestruct p by omega]
    rfl

lemma set_last_none (l : List (Option Fn)) :
    (l ++ [none]).set l.length none = l ++ [none] := by
  rw [List.set_append_right _ _ (Nat.le_refl _), Nat.sub_self]
  rfl

lemma computeSlots_eq (cls : ClassDecl) : computeSlots cls = specSlots cls := by
  have hC := length_ctorsRootFirst cls
  have hK := length_dtorsLeafFirst cls
  unfold computeSlots
  simp only [List.set_replicate_self]
  rw [fillLoop_spec cls _ (countConstruct cls) (countConstruct cls + 1) (Nat.le_refl _)
    (Nat.le_succ _)]
  simp only [Nat.sub_self]
  rw [writeList_eq (dtorsLeafFirst cls) _ (countConstruct cls + 1)
    (by simp only [List.length_replicate, hK]; omega)]
  rw [hK, List.take_replicate, List.drop_replicate,
    Nat.min_eq_left (by omega),
    show countConstruct cls + countDestruct cls + 2 - (countConstruct cls + 1 + countDestruct cls)
      = 1 by omega]
  rw [writeList_eq (ctorsRootFirst cls) _ 0
    (by simp only [List.length_append, List.length_replicate, List.length_map, hC, hK]; omega)]
  rw [hC, List.take_zero, List.nil_append, Nat.zero_add]
  rw [List.drop_append_eq_append_drop, List.drop_append_eq_append_drop,
    List.drop_replicate, List.length_replicate,
    show countConstruct cls + 1 - countConstruct cls = 1 by omega,
    show countConstruct cls - (countConstruct cls + 1) = 0 by omega,
    List.drop_zero]
  simp only [List.length_append, List.length_replicate, List.length_map, hK]
  rw [show countConstruct cls - (countConstruct cls + 1 + countDestruct cls) = 0 by omega,
    List.drop_zero]
  have hshape : List.map some (ctorsRootFirst cls) ++
      (List.replicate 1 (none : Option Fn) ++ List.map some (dtorsLeafFirst cls) ++
        List.replicate 1 (none : Option Fn))
      = (List.map some (ctorsRootFirst cls) ++ [none] ++ List.map some (dtorsLeafFirst cls)) ++
        [none] := by
    simp [List.append_assoc]
  rw [hshape]
  rw [show countConstruct cls + 1 + countDestruct cls
      = (List.map some (ctorsRootFirst cls) ++ [none] ++
          List.map some (dtorsLeafFirst cls)).length by
    simp only [List.length_append, List.length_map, hC, hK, List.length_singleton]]
  rw [set_last_none]
  simp [specSlots, List.append_assoc]

/-! ## State-level helper lemmas -/

lemma save_class_heap (w : World) (p : Ptr) : (save_class w p).heap = w.heap := by
  simp only [save_class, expand_array]
  split <;> rfl

lemma save_class_descs (w : World) (p : Ptr) : (save_class w p).descs = w.descs := by
  simp only [save_class, expand_array]
  split <;> rfl

lemma save_class_epoch (w : World) (p : Ptr) :
    (save_class w p).prte_class_init_epoch = w.prte_class_init_epoch := by
  simp only [save_class, expand_array]
  split <;> rfl

lemma initialize_oob (w : World) (i : Nat) (h : w.descs.get? i = none) :
    prte_class_initialize w i = w := by
  unfold prte_class_initialize
  rw [h]

lemma initialize_fast (w : World) (i : Nat) (cls : ClassT)
    (h : w.descs.get? i = some cls)
    (heq : w.prte_class_init_epoch = cls.cls_initialized) :
    prte_class_initialize w i = w := by
  unfold prte_class_initialize
  rw [h]
  simp [heq]

/-- The descriptor written on the slow path. -/
def initializedDesc (w : World) (cls : ClassT) : ClassT :=
  { cls with
    cls_depth := countDepth cls.decl,
    cls_initialized := w.prte_class_init_epoch,
    cls_construct_array := some (w.heap.length, 0),
    cls_destruct_array := some (w.heap.length, countConstruct cls.decl + 1) }

lemma initialize_slow (w : World) (i : Nat) (cls : ClassT)
    (h : w.descs.get? i = some cls)
    (hne : w.prte_class_init_epoch ≠ cls.cls_initialized) :
    prte_class_initialize w i =
      save_class
        { w with heap := w.heap ++ [some (computeSlots cls.decl)],
                 descs := w.descs.set i (initializedDesc w cls) }
        (w.heap.length, 0) := by
  unfold prte_class_initialize
  rw [h]
  simp [hne, initializedDesc]

lemma initialize_slow_heap (w : World) (i : Nat) (cls : ClassT)
    (h : w.descs.get? i = some cls)
    (hne : w.prte_class_init_epoch ≠ cls.cls_initialized) :
    ( prte_class_initialize w i).heap = w.heap ++ [some (computeSlots cls.decl)] := by
  rw [initialize_slow w i cls h hne, save_class_heap]

lemma initialize_slow_descs (w : World) (i : Nat) (cls : ClassT)
    (h : w.descs.get? i = some cls)
    (hne : w.prte_class_init_epoch ≠ cls.cls_initialized) :
    ( prte_class_initialize w i).descs = w.descs.set i (initializedDesc w cls) := by
  rw [initialize_slow w i cls h hne, save_class_descs]

lemma initialize_slow_get (w : World) (i : Nat) (cls : ClassT)
    (h : w.descs.get? i = some cls)
    (hne : w.prte_class_init_epoch ≠ cls.cls_initialized) :
    ( prte_class_initialize w i).descs.get? i = some (initializedDesc w cls) := by
  rw [initialize_slow_descs w i cls h hne, List.get?_set_eq, h]
  rfl

lemma blockOf_initialize_slow (w : World) (i : Nat) (cls : ClassT)
    (h : w.descs.get? i = some cls)
    (hne : w.prte_class_init_epoch ≠ cls.cls_initialized) :
    blockOf ( prte_class_initialize w i) i = some (specSlots cls.decl) := by
  unfold blockOf
  rw [initialize_slow_get w i cls h hne]
  simp only [initializedDesc]
  rw [initialize_slow_heap w i cls h hne]
  rw [List.get?_concat_length]
  simp [computeSlots_eq]

/-- The epoch is unchanged by `prte_class_initialize`, on every path. -/
lemma initialize_epoch (w : World) (i : Nat) :
    ( prte_class_initialize w i).prte_class_init_epoch = w.prte_class_init_epoch := by
  unfold prte_class_initialize
  cases h : w.descs.get? i with
  | none => rfl
  | some cls =>
    by_cases heq : w.prte_class_init_epoch = cls.cls_initialized
    · simp [heq]
    · simp [heq, save_class_epoch]

/-! ## Finalize helper lemmas -/

lemma finalize_descs (w : World) : (prte_class_finalize w).1.descs = w.descs := by
  unfold prte_class_finalize
  cases w.classes <;> rfl

lemma finalize_epoch (w : World) :
    (prte_class_finalize w).1.prte_class_init_epoch =
      (if INT_MAX = w.prte_class_init_epoch then 1 else w.prte_class_init_epoch + 1) := by
  unfold prte_class_finalize
  cases h : w.classes <;> simp [h]

lemma finalize_ret (w : World) : (prte_class_finalize w).2 = PRTE_SUCCESS := by
  unfold prte_class_finalize
  cases w.classes <;> rfl

lemma epoch_advance_ne (e : Int) : (if INT_MAX = e then 1 else e + 1) ≠ e := by
  split
  · rename_i h
    rw [show INT_MAX = (2147483647 : Int) from rfl] at h
    omega
  · omega

lemma freeAll_length : ∀ (l : List (Option Ptr)) (heap : List (Option (List (Option Fn)))),
    (freeAll heap l).length = heap.length
| [], _ => rfl
| none :: rest, heap => freeAll_length rest heap
| some (a, _) :: rest, heap => by
  rw [show freeAll heap (some (a, _) :: rest) = freeAll (heap.set a none) rest from rfl,
    freeAll_length rest, List.length_set]

lemma freeAll_get_none : ∀ (l : List (Option Ptr)) (heap : List (Option (List (Option Fn))))
    (a : Nat), heap.get? a = some none → (freeAll heap l).get? a = some none
| [], _, _, h => h
| none :: rest, heap, a, h => freeAll_get_none rest heap a h
| some (b, o) :: rest, heap, a, h => by
  rw [show freeAll heap (some (b, o) :: rest) = freeAll (heap.set b none) rest from rfl]
  refine freeAll_get_none rest _ a ?_
  by_cases hba : b = a
  · subst hba
    rw [List.get?_set_eq, h]
    rfl
  · rw [List.get?_set_ne _ _ hba, h]

lemma freeAll_mem : ∀ (l : List (Option Ptr)) (heap : List (Option (List (Option Fn))))
    (a off : Nat), some (a, off) ∈ l → a < heap.length →
    (freeAll heap l).get? a = some none
| [], _, _, _, hmem, _ => absurd hmem (List.not_mem_nil _)
| none :: rest, heap, a, off, hmem, hlt => by
  rcases List.mem_cons.mp hmem with h | h
  · exact absurd h (by simp)
  · exact freeAll_mem rest heap a off h hlt
| some (b, o) :: rest, heap, a, off, hmem, hlt => by
  rw [show freeAll heap (some (b, o) :: rest) = freeAll (heap.set b none) rest from rfl]
  rcases List.mem_cons.mp hmem with h | h
  · cases h
    refine freeAll_get_none rest _ _ ?_
    rw [List.get?_set_eq, List.get?_eq_get hlt]
    rfl
  · exact freeAll_mem rest _ a off h (by rw [List.length_set]; exact hlt)

/-! ## Concrete scenario declarations (shared by several witnesses) -/

/-- Scenario class `A`: root, constructor (id 1), no destructor. -/
def declA : ClassDecl := .root "A" (some 1) none 8

/-- Scenario class `B`, child of `A`: no constructor, destructor (id 2). -/
def declB : ClassDecl := .child "B" declA none (some 2) 16

/-- Scenario class `C`, child of `B`: constructor (id 3), destructor (id 4). -/
def declC : ClassDecl := .child "C" declB (some 3) (some 4) 24

/-- A start state holding the base descriptor and a never-initialised
descriptor for scenario class `C`. -/
def exWorld : World :=
  { prte_class_init_epoch := 1, classes := none, num_classes := 0,
    max_classes := 0, heap := [],
    descs := [prte_object_t_class, ⟨declC, 0, 0, none, none⟩] }

/-- State `exWorld` after the descriptor of `C` has been initialised. -/
def exWorldInit : World := prte_class_initialize exWorld 1

/-- Variant of `exWorld` with the epoch at `INT_MAX`. -/
def exWorldMax : World := { exWorld with prte_class_init_epoch := INT_MAX }

/-! ## Claim theorems -/

/-- C1: after `prte_class_initialize` computes a descriptor (stamp not
current, so the computation runs), the construct chain holds exactly the
chain's constructors ordered root class first and is terminated by the
`NULL` absence marker, and the destruct chain holds exactly the chain's
destructors ordered this class first, also `NULL`-terminated; the entry
counts are the constructor/destructor counts of the chain. -/
theorem C1_chains (w : World) (i : Nat) (cls : ClassT)
    (h : w.descs.get? i = some cls)
    (hne : w.prte_class_init_epoch ≠ cls.cls_initialized) :
    blockOf ( prte_class_initialize w i) i =
      some ((ctorsRootFirst cls.decl).map some ++ [none] ++
            (dtorsLeafFirst cls.decl).map some ++ [none]) ∧
    (ctorsRootFirst cls.decl).length = countConstruct cls.decl ∧
    (dtorsLeafFirst cls.decl).length = countDestruct cls.decl := by
  refine ⟨?_, length_ctorsRootFirst _, length_dtorsLeafFirst _⟩
  rw [blockOf_initialize_slow w i cls h hne]
  rfl

/-- C1 witness: the scenario `A <- B <- C` with constructors on `A` (1)
and `C` (3) and destructors on `B` (2) and `C` (4) yields
construct chain `[A.ctor, C.ctor, NULL]`, destruct chain
`[C.dtor, B.dtor, NULL]`. -/
theorem C1_chains_witness :
    blockOf ( prte_class_initialize exWorld 1) 1 =
      some [some 1, some 3, none, some 4, some 2, none] := by
  have h := C1_chains exWorld 1 ⟨declC, 0, 0, none, none⟩ rfl (by decide)
  rw [h.1]
  rfl

/-- C2: a second `prte_class_initialize` on the same descriptor within
the same epoch changes nothing at all (no allocation, no recomputation,
no mutation of the descriptor or the storage list), because after the
first call the descriptor's stamp equals the current epoch and the
second call takes the fast path. -/
theorem C2_idempotent (w : World) (i : Nat) (cls : ClassT)
    (h : w.descs.get? i = some cls) :
    prte_class_initialize ( prte_class_initialize w i) i =
      prte_class_initialize w i ∧
    ∃ cls', ( prte_class_initialize w i).descs.get? i = some cls' ∧
      cls'.cls_initialized = ( prte_class_initialize w i).prte_class_init_epoch := by
  by_cases heq : w.prte_class_init_epoch = cls.cls_initialized
  · have hf := initialize_fast w i cls h heq
    rw [hf]
    exact ⟨hf, cls, h, heq.symm⟩
  · have hget := initialize_slow_get w i cls h heq
    refine ⟨initialize_fast _ i _ hget ?_, initializedDesc w cls, hget, ?_⟩
    · rw [initialize_epoch]
      rfl
    · rw [initialize_epoch]
      rfl

/-- C2 witness at the concrete scenario world. -/
theorem C2_idempotent_witness :
    prte_class_initialize ( prte_class_initialize exWorld 1) 1 =
      prte_class_initialize exWorld 1 :=
  (C2_idempotent exWorld 1 ⟨declC, 0, 0, none, none⟩ rfl).1

/-- C6: the `cls_depth` written by the computation is the length of the
chain from the descriptor through the root, inclusive; a root class has
depth 1 and each parent link adds 1. -/
theorem C6_depth (w : World) (i : Nat) (cls : ClassT)
    (h : w.descs.get? i = some cls)
    (hne : w.prte_class_init_epoch ≠ cls.cls_initialized) :
    (∃ cls', ( prte_class_initialize w i).descs.get? i = some cls' ∧
       cls'.cls_depth = (ancChain cls.decl).length) ∧
    (∀ n c d s, countDepth (.root n c d s) = 1) ∧
    (∀ n p c d s, countDepth (.child n p c d s) = countDepth p + 1) := by
  exact ⟨⟨initializedDesc w cls, initialize_slow_get w i cls h hne, rfl⟩,
    fun n c d s => rfl, fun n p c d s => countDepth_child n p c d s⟩

/-- C6 witness: the depth of `C` (three-level chain) is 3. -/
theorem C6_depth_witness :
    ∃ cls', ( prte_class_initialize exWorld 1).descs.get? 1 = some cls' ∧
      cls'.cls_depth = 3 :=
  (C6_depth exWorld 1 ⟨declC, 0, 0, none, none⟩ rfl (by decide)).1

/-- C7: the computation makes exactly one new allocation, of
`(cc + 1) + (kc + 1)` slots; the construct chain starts at its base
(offset 0) and the destruct chain pointer is the same allocation at
offset `cc + 1`, immediately after the construct region. -/
theorem C7_single_allocation (w : World) (i : Nat) (cls : ClassT)
    (h : w.descs.get? i = some cls)
    (hne : w.prte_class_init_epoch ≠ cls.cls_initialized) :
    ( prte_class_initialize w i).heap.length = w.heap.length + 1 ∧
    ( prte_class_initialize w i).heap.get? w.heap.length =
      some (some (specSlots cls.decl)) ∧
    (specSlots cls.decl).length =
      (countConstruct cls.decl + 1) + (countDestruct cls.decl + 1) ∧
    (∃ cls', ( prte_class_initialize w i).descs.get? i = some cls' ∧
       cls'.cls_construct_array = some (w.heap.length, 0) ∧
       cls'.cls_destruct_array = some (w.heap.length, countConstruct cls.decl + 1)) := by
  rw [initialize_slow_heap w i cls h hne]
  refine ⟨by simp, ?_, ?_,
    ⟨initializedDesc w cls, initialize_slow_get w i cls h hne, rfl, rfl⟩⟩
  · rw [List.get?_concat_length, computeSlots_eq]
  · simp only [specSlots, List.length_append, List.length_map, List.length_cons,
      List.length_nil, length_ctorsRootFirst, length_dtorsLeafFirst]
    omega

/-- C7 witness: for `C` the single block has `(2+1)+(2+1) = 6` slots,
construct chain at offset 0, destruct chain at offset 3. -/
theorem C7_single_allocation_witness :
    ( prte_class_initialize exWorld 1).heap.length = 1 ∧
    (specSlots declC).length = 6 ∧
    (∃ cls', ( prte_class_initialize exWorld 1).descs.get? 1 = some cls' ∧
       cls'.cls_construct_array = some (0, 0) ∧
       cls'.cls_destruct_array = some (0, 3)) := by
  have h := C7_single_allocation exWorld 1 ⟨declC, 0, 0, none, none⟩ rfl (by decide)
  exact ⟨h.1, h.2.2.1, h.2.2.2⟩

/-- C3: a descriptor stamped with the current epoch becomes stale after
`prte_class_finalize` (its stamp no longer matches the advanced epoch),
and the next `prte_class_initialize` recomputes depth and both chains
with contents identical to the first computation (both are the same pure
function of the unchanged declaration). -/
theorem C3_roundtrip (w : World) (i : Nat) (cls : ClassT)
    (h : w.descs.get? i = some cls)
    (hcur : cls.cls_initialized = w.prte_class_init_epoch)
    (hblock : blockOf w i = some (specSlots cls.decl)) :
    ((prte_class_finalize w).1.descs.get? i = some cls ∧
     cls.cls_initialized ≠ (prte_class_finalize w).1.prte_class_init_epoch) ∧
    blockOf ( prte_class_initialize (prte_class_finalize w).1 i) i = blockOf w i ∧
    (∃ cls₂, ( prte_class_initialize (prte_class_finalize w).1 i).descs.get? i =
        some cls₂ ∧ cls₂.cls_depth = countDepth cls.decl) := by
  have hd : (prte_class_finalize w).1.descs.get? i = some cls := by
    rw [finalize_descs]
    exact h
  have hstale : cls.cls_initialized ≠ (prte_class_finalize w).1.prte_class_init_epoch := by
    rw [finalize_epoch, hcur]
    exact fun hh => epoch_advance_ne w.prte_class_init_epoch hh.symm
  refine ⟨⟨hd, hstale⟩, ?_, ?_⟩
  · rw [blockOf_initialize_slow _ i cls hd (Ne.symm hstale), hblock]
  · exact ⟨initializedDesc _ cls, initialize_slow_get _ i cls hd (Ne.symm hstale), rfl⟩

/-- C3 witness at the initialised scenario world. -/
theorem C3_roundtrip_witness :
    blockOf ( prte_class_initialize (prte_class_finalize exWorldInit).1 1) 1 =
      blockOf exWorldInit 1 ∧
    (1 : Int) ≠ (prte_class_finalize exWorldInit).1.prte_class_init_epoch := by
  have h := C3_roundtrip exWorldInit 1 ⟨declC, 1, 3, some (0, 0), some (0, 3)⟩
    (by decide) rfl (by decide)
  exact ⟨h.2.1, h.1.2⟩

/-- C4 (amended): the statically pre-marked base class descriptor has
stamp 1, which equals the *initial* epoch, so in the initial state
`prte_class_initialize` on it is a fast-path no-op; but it is not
permanently outside the epoch mechanism: after one `prte_class_finalize`
advances the epoch to 2, the very next `prte_class_initialize` on the
base descriptor takes the slow path, allocates a block and computes its
(trivial) chains. -/
theorem C4_root_preinitialized :
    prte_class_initialize initialWorld 0 = initialWorld ∧
    ( prte_class_initialize (prte_class_finalize initialWorld).1 0).heap.length =
      (prte_class_finalize initialWorld).1.heap.length + 1 ∧
    blockOf ( prte_class_initialize (prte_class_finalize initialWorld).1 0) 0 =
      some (specSlots prte_object_t_class.decl) := by
  refine ⟨initialize_fast initialWorld 0 prte_object_t_class rfl rfl, ?_, ?_⟩
  · rw [initialize_slow_heap _ 0 prte_object_t_class (by decide) (by decide)]
    simp
  · exact blockOf_initialize_slow _ 0 prte_object_t_class (by decide) (by decide)

/-- C4 counterexample: the claim "for every reachable state, including
states after finalize_all, ensure_initialized on the root descriptor is
a no-op fast path and never computes or allocates" is false — after one
finalize the call mutates the state (it allocates and re-stamps). -/
theorem C4_root_not_permanent :
    prte_class_initialize (prte_class_finalize initialWorld).1 0 ≠
      (prte_class_finalize initialWorld).1 := by decide

/-- C5: with the epoch at `INT_MAX`, `prte_class_finalize` wraps it to 1
(not 0), and any descriptor stale after the wrap (stamp ≠ 1) is
recomputed correctly — its chains again equal the pure chain contents of
its declaration — on its next `prte_class_initialize`. -/
theorem C5_epoch_wrap (w : World) (i : Nat) (cls : ClassT)
    (hE : w.prte_class_init_epoch = INT_MAX)
    (h : w.descs.get? i = some cls)
    (hstale : cls.cls_initialized ≠ 1) :
    (prte_class_finalize w).1.prte_class_init_epoch = 1 ∧
    blockOf ( prte_class_initialize (prte_class_finalize w).1 i) i =
      some (specSlots cls.decl) := by
  have he : (prte_class_finalize w).1.prte_class_init_epoch = 1 := by
    rw [finalize_epoch, hE]
    simp
  refine ⟨he, ?_⟩
  have hd : (prte_class_finalize w).1.descs.get? i = some cls := by
    rw [finalize_descs]
    exact h
  exact blockOf_initialize_slow _ i cls hd
    (by rw [he]; exact fun hh => hstale hh.symm)

/-- C5 witness: concrete world with the epoch at `INT_MAX` and a stale
descriptor for `C`. -/
theorem C5_epoch_wrap_witness :
    (prte_class_finalize exWorldMax).1.prte_class_init_epoch = 1 ∧
    blockOf ( prte_class_initialize (prte_class_finalize exWorldMax).1 1) 1 =
      some (specSlots declC) :=
  C5_epoch_wrap exWorldMax 1 ⟨declC, 0, 0, none, none⟩ rfl rfl (by decide)

/-- C8 (amended): in the chain-filling step the absence marker is
written at the *tail* of the construct region (slot `cc`, one past the
last constructor — where the backward fill starts) and at the tail of
the destruct region (slot `cc + 1 + kc`, the last slot of the block). -/
theorem C8_sentinels (cls : ClassDecl) :
    (computeSlots cls).get? (countConstruct cls) = some none ∧
    (computeSlots cls).get? (countConstruct cls + 1 + countDestruct cls) = some none := by
  rw [computeSlots_eq]
  have hC := length_ctorsRootFirst cls
  have hK := length_dtorsLeafFirst cls
  constructor
  · unfold specSlots
    rw [show countConstruct cls = (List.map some (ctorsRootFirst cls)).length by
        rw [List.length_map, hC],
      List.get?_append (by simp),
      List.get?_append (by simp),
      List.get?_concat_length]
  · unfold specSlots
    rw [show countConstruct cls + 1 + countDestruct cls
        = (List.map some (ctorsRootFirst cls) ++ [none] ++
            List.map some (dtorsLeafFirst cls)).length by
      simp only [List.length_append, List.length_map, hC, hK, List.length_singleton],
      List.get?_concat_length]

/-- C8 counterexample: for the scenario class `C` (two constructors in
the chain) the *head* slot of the construct array holds the root-most
constructor, not the absence marker — the sentinel is not written at the
head of the construct array. -/
theorem C8_head_not_sentinel :
    (computeSlots declC).get? 0 = some (some 1) ∧
    ¬ ((computeSlots declC).get? 0 = some none) := by decide

/-- C9: `prte_class_finalize` always returns the success indicator, and
when called with an empty registry (no descriptor initialised since the
last finalize: `classes` is `NULL`, count and capacity 0) it frees
nothing, leaves the registry empty, and still advances the epoch. -/
theorem C9_finalize_empty (w : World) :
    (prte_class_finalize w).2 = PRTE_SUCCESS ∧
    (w.classes = none → w.num_classes = 0 → w.max_classes = 0 →
      ((prte_class_finalize w).1.classes = none ∧
       (prte_class_finalize w).1.num_classes = 0 ∧
       (prte_class_finalize w).1.max_classes = 0 ∧
       (prte_class_finalize w).1.heap = w.heap ∧
       (prte_class_finalize w).1.prte_class_init_epoch ≠ w.prte_class_init_epoch)) := by
  refine ⟨finalize_ret w, fun hc hn hm => ?_⟩
  unfold prte_class_finalize
  simp only [hc, hn, hm]
  exact ⟨trivial, trivial, trivial, trivial, epoch_advance_ne w.prte_class_init_epoch⟩

/-- C9 witness at the program's initial state. -/
theorem C9_finalize_empty_witness :
    (prte_class_finalize initialWorld).2 = PRTE_SUCCESS ∧
    ((prte_class_finalize initialWorld).1.classes = none ∧
     (prte_class_finalize initialWorld).1.num_classes = 0 ∧
     (prte_class_finalize initialWorld).1.max_classes = 0 ∧
     (prte_class_finalize initialWorld).1.heap = initialWorld.heap ∧
     (prte_class_finalize initialWorld).1.prte_class_init_epoch ≠
       initialWorld.prte_class_init_epoch) :=
  ⟨(C9_finalize_empty initialWorld).1,
   (C9_finalize_empty initialWorld).2 rfl rfl rfl⟩

/-- C10: `prte_class_finalize` never mutates any descriptor — the whole
descriptor list (stamps, depths, both chain pointers) is unchanged — and
does not change the number of heap cells; every block pointer recorded
in the storage list is freed, so a descriptor still holds its (now
dangling) pointer into the freed allocation. -/
theorem C10_finalize_frame (w : World) :
    (prte_class_finalize w).1.descs = w.descs ∧
    (prte_class_finalize w).1.heap.length = w.heap.length ∧
    (∀ arr a off, w.classes = some arr → some (a, off) ∈ arr.take w.num_classes →
      a < w.heap.length → (prte_class_finalize w).1.heap.get? a = some none) := by
  refine ⟨finalize_descs w, ?_, ?_⟩
  · unfold prte_class_finalize
    cases h : w.classes
    · rfl
    · simp only [h]
      exact freeAll_length _ _
  · intro arr a off harr hmem hlt
    unfold prte_class_finalize
    simp only [harr]
    exact freeAll_mem _ _ a off hmem hlt

/-- C10 witness: in the initialised scenario world, finalize leaves the
descriptor list untouched and frees the one recorded block. -/
theorem C10_finalize_frame_witness :
    (prte_class_finalize exWorldInit).1.descs = exWorldInit.descs ∧
    (prte_class_finalize exWorldInit).1.heap.get? 0 = some none :=
  ⟨(C10_finalize_frame exWorldInit).1,
   (C10_finalize_frame exWorldInit).2.2 ((List.replicate 10 none).set 0 (some (0, 0)))
     0 0 (by decide) (by decide) (by decide)⟩

/-- C8 witness: for scenario class `C` (c = 2, k = 2) the sentinels sit
at slots 2 and 5. -/
theorem C8_sentinels_witness :
    (computeSlots declC).get? 2 = some none ∧
    (computeSlots declC).get? 5 = some none :=
  C8_sentinels declC
